import Mathlib

/-!
Shallow embedding of the outvoice invoice-generation pipeline
(src/pdf.py, src/utility.py, src/mailer.py, src/db.py, src/api.py).

Numeric strings flowing through the Python code are parsed with float()
and re-rendered with format specifiers; the embedding models the decimal
values exactly as rationals, an explicit parser standing for float() on
plain decimal literals, and an explicit two-decimal renderer standing for
the .2f format specifier.
-/

namespace Util

/-- Character for a single decimal digit. -/
def digitChar (n : Nat) : Char := Char.ofNat (48 + n)

/-- Decimal rendering of a natural number, fuel-recursive so that the
kernel can evaluate it. Stands for Python str() on a nonnegative int. -/
def natToStringAux : Nat → Nat → List Char
  | 0, _ => []
  | fuel + 1, n =>
    if n < 10 then [digitChar n]
    else natToStringAux fuel (n / 10) ++ [digitChar (n % 10)]

def natToString (n : Nat) : String := ⟨natToStringAux (n + 1) n⟩

/-- Zero-pad to two digits, as the %d / %m strftime directives do. -/
def pad2 (n : Nat) : String :=
  if n < 10 then "0" ++ natToString n else natToString n

/-- Zero-pad to four digits, as the %Y strftime directive does on the
four-digit years accepted by the parser. -/
def pad4 (n : Nat) : String :=
  if n < 10 then "000" ++ natToString n
  else if n < 100 then "00" ++ natToString n
  else if n < 1000 then "0" ++ natToString n
  else natToString n

/-- An exact rational: an integer numerator over a positive denominator,
not necessarily in lowest terms. The number type of the embedding: the
decimal values the Python code carries through float() round-trips are
represented exactly, and every operation is an integer computation the
kernel can evaluate. -/
structure Dec where
  num : Int
  den : Nat
  deriving DecidableEq, Repr

/-- Embed an integer. -/
def Dec.ofInt (n : Int) : Dec := ⟨n, 1⟩

/-- Exact product, the model of Python float multiplication on the
decimal values that occur in the pipeline. -/
def Dec.mul (a b : Dec) : Dec := ⟨a.num * b.num, a.den * b.den⟩

/-- Exact sum, the model of Python float addition on the decimal values
that occur in the pipeline. -/
def Dec.add (a b : Dec) : Dec := ⟨a.num * b.den + b.num * a.den, a.den * b.den⟩

/-- Round the value num / den to the nearest integer, ties to even,
matching the IEEE round-half-even convention CPython applies when
formatting floats. Computed from the floor and the remainder so that the
result depends only on the rational value, not the representation. -/
def Dec.roundHalfEven (a : Dec) : Int :=
  let f := Int.fdiv a.num a.den
  let rem := a.num - f * a.den
  if 2 * rem < (a.den : Int) then f
  else if (a.den : Int) < 2 * rem then f + 1
  else if 2 ∣ f then f else f + 1

/-- Render a value with exactly two decimal places: the meaning of the
Python format specifier .2f in this embedding. -/
def formatTwoDecimals (q : Dec) : String :=
  let n := (Dec.mul q (Dec.ofInt 100)).roundHalfEven
  let sign := if n < 0 then "-" else ""
  let m := n.natAbs
  sign ++ natToString (m / 100) ++ "." ++ pad2 (m % 100)

/-- Split a character list on a separator character; mirrors Python
str.split(sep) on the decoded character sequence. -/
def splitOnChar (sep : Char) : List Char → List (List Char)
  | [] => [[]]
  | c :: cs =>
    if c = sep then [] :: splitOnChar sep cs
    else
      match splitOnChar sep cs with
      | [] => [[c]]
      | g :: gs => (c :: g) :: gs

/-- Numeric value of a digit string read left to right. -/
def digitsVal (l : List Char) : Nat :=
  l.foldl (fun a c => a * 10 + (c.toNat - 48)) 0

/-- Parse a nonempty all-digit character list, as the capture groups of
the strptime regular expressions (followed by int()) do. -/
def parseDigits (l : List Char) : Option Nat :=
  if l ≠ [] ∧ l.all Char.isDigit then some (digitsVal l) else none

/-- Parse a plain decimal literal (optional leading minus sign, digits,
optional fractional part). Stands for Python float() on the decimal
strings that flow through the invoice pipeline. -/
def parseDecimal (s : String) : Option Dec :=
  let (neg, l) :=
    match s.data with
    | '-' :: rest => (true, rest)
    | l => (false, l)
  let val : Option Dec :=
    match splitOnChar '.' l with
    | [ip] =>
      if ip ≠ [] ∧ ip.all Char.isDigit then some ⟨(digitsVal ip : Int), 1⟩ else none
    | [ip, fp] =>
      if (ip ≠ [] ∨ fp ≠ []) ∧ ip.all Char.isDigit ∧ fp.all Char.isDigit then
        some ⟨(digitsVal ip * 10 ^ fp.length + digitsVal fp : Int), 10 ^ fp.length⟩
      else none
    | _ => none
  val.map fun q => if neg then ⟨-q.num, q.den⟩ else q

end Util

namespace Utility

open Util

/-- Gregorian leap-year rule used by datetime. -/
def isLeapYear (y : Nat) : Bool :=
  (y % 4 = 0 && y % 100 ≠ 0) || y % 400 = 0

/-- Number of days in a month, as validated by the datetime constructor. -/
def daysInMonth (y m : Nat) : Nat :=
  if m = 2 then (if isLeapYear y then 29 else 28)
  else if m = 4 ∨ m = 6 ∨ m = 9 ∨ m = 11 then 30
  else 31

/-- Embedding of datetime.strptime(s, "%Y-%m-%d"): a four-digit year
(at least 1, since datetime rejects year 0), a one-or-two-digit month in
1..12, and a one-or-two-digit day valid for that month and year. Returns
the (year, month, day) triple or None on a parse failure (ValueError). -/
def parse_iso_date (s : String) : Option (Nat × Nat × Nat) :=
  match splitOnChar '-' s.data with
  | [ys, ms, ds] =>
    match parseDigits ys, parseDigits ms, parseDigits ds with
    | some y, some m, some d =>
      if ys.length = 4 ∧ 1 ≤ ms.length ∧ ms.length ≤ 2 ∧ 1 ≤ ds.length ∧ ds.length ≤ 2
          ∧ 1 ≤ y ∧ 1 ≤ m ∧ m ≤ 12 ∧ 1 ≤ d ∧ d ≤ daysInMonth y m then
        some (y, m, d)
      else none
    | _, _, _ => none
  | _ => none

/-- Embedding of utility.format_uk_date: Y-m-d in, d/m/Y out through
strftime("%d/%m/%Y"), None for a ValueError raised by strptime. The
function declares exactly one parameter. -/
def format_uk_date (s : String) : Option String :=
  (parse_iso_date s).map fun ymd =>
    pad2 ymd.2.2 ++ "/" ++ pad2 ymd.2.1 ++ "/" ++ pad4 ymd.1

/-- Embedding of the call format_uk_date(s, separator="_") made by
pdf.generate_output_path: utility.format_uk_date declares no separator
parameter, so Python rejects the unexpected keyword argument and every
such call raises TypeError before the date is even inspected. None
models that unconditional failure. -/
def format_uk_date_separator_call (s : String) (sep : String) : Option String :=
  none

/-- Embedding of utility.generate_absolute_path: prefix the
application-root directory of the script. -/
def generate_absolute_path (root : String) (relative_path : String) : String :=
  root ++ "/" ++ relative_path

/-- Follows the words of the spec, not the source: a strict ISO
YYYY-MM-DD shape, four digit year, two digit month, two digit day,
separated by dashes. Used to compare the spec against the parser the
source actually implements. -/
def matches_iso (s : String) : Bool :=
  match s.data with
  | [y1, y2, y3, y4, h1, m1, m2, h2, d1, d2] =>
    y1.isDigit && y2.isDigit && y3.isDigit && y4.isDigit && h1 = '-'
      && m1.isDigit && m2.isDigit && h2 = '-' && d1.isDigit && d2.isDigit
  | _ => false

end Utility

namespace Pdf

open Util Utility

/-- Embedding of pdf.generate_line_item_lists: one slice of ten items per
page, advancing ten at a time (range(0, n, 10) has ceil(n / 10) indices). -/
def generate_line_item_lists (line_items : List α) : List (List α) :=
  (List.range ((line_items.length + 9) / 10)).map fun i =>
    (line_items.drop (10 * i)).take 10

end Pdf

namespace Util

/-- Re-join the groups produced by splitOnChar with the separator; used to
reason about the shape of the strings a split accepts. -/
def joinOnChar (sep : Char) : List (List Char) → List Char
  | [] => []
  | [g] => g
  | g :: gs => g ++ sep :: joinOnChar sep gs

/-- Map a function over a list inside the Option monad, stopping at the
first failure: the shape of the Python for-loops that may raise. -/
def mapO (g : α → Option β) : List α → Option (List β)
  | [] => some []
  | x :: xs =>
    match g x with
    | none => none
    | some y =>
      match mapO g xs with
      | none => none
      | some ys => some (y :: ys)

/-- Map a function over a list inside the Except monad, stopping at the
first raised error: the shape of the Python for-loops that may raise. -/
def mapE (g : α → Except ε β) : List α → Except ε (List β)
  | [] => .ok []
  | x :: xs =>
    match g x with
    | .error e => .error e
    | .ok y =>
      match mapE g xs with
      | .error e => .error e
      | .ok ys => .ok (y :: ys)

/-- Pair each list element with its position, starting at i: the model of
Python enumerate. -/
def enumFrom : Nat → List α → List (Nat × α)
  | _, [] => []
  | i, x :: xs => (i, x) :: enumFrom (i + 1) xs

end Util

namespace Utility

open Util

/-- Declarative description of the strings datetime.strptime accepts for
the pattern %Y-%m-%d: a four-digit year at least 1, a dash, a one-or-two
digit month in 1..12, a dash, and a one-or-two digit day valid for that
month and year. Stated structurally on the character sequence so that the
parser can be measured against it. -/
def LenientDate (s : String) (y m d : Nat) : Prop :=
  ∃ ys ms ds : List Char,
    s.data = ys ++ '-' :: (ms ++ '-' :: ds)
    ∧ ys.all Char.isDigit ∧ ms.all Char.isDigit ∧ ds.all Char.isDigit
    ∧ ys.length = 4 ∧ (ms.length = 1 ∨ ms.length = 2) ∧ (ds.length = 1 ∨ ds.length = 2)
    ∧ y = digitsVal ys ∧ m = digitsVal ms ∧ d = digitsVal ds
    ∧ 1 ≤ y ∧ 1 ≤ m ∧ m ≤ 12 ∧ 1 ≤ d ∧ d ≤ daysInMonth y m

end Utility

namespace Pdf

open Util Utility

/-- A line item as submitted to the /invoice endpoint: a dict of strings
with a description, a unit cost and a quantity. -/
structure LineItem where
  description : String
  cost_per_item : String
  count : String
  deriving DecidableEq, Repr

/-- A line item after add_line_items_amount added the derived amount
entry (and, later, after format_line_items reformatted the unit cost). -/
structure LineItemA where
  description : String
  cost_per_item : String
  count : String
  amount : String
  deriving DecidableEq, Repr

/-- The /invoice request body after the email fields and the method field
are stripped: the dict pdf.generate_invoice receives. A missing or None
address_line_2 is modelled by the empty string, which Python treats the
same way (both are falsy). -/
structure InvoiceForm where
  first_name : String
  last_name : String
  address_line_1 : String
  address_line_2 : String
  city : String
  post_code : String
  invoice_number : String
  invoice_date : String
  pay_date : String
  line_items : List LineItem
  tax : String
  subtotal : String
  deriving DecidableEq, Repr

/-- Embedding of pdf.format_quantity_string: parse with float() and
render with the .2f specifier; None models the ValueError float() raises
on a malformed string. -/
def format_quantity_string (string_to_format : String) : Option String :=
  (parseDecimal string_to_format).map formatTwoDecimals

/-- Embedding of pdf.format_currency_string: as format_quantity_string
but with a currency-symbol prefix. -/
def format_currency_string (string_to_format : String) (currency_symbol : String) :
    Option String :=
  (parseDecimal string_to_format).map fun q => currency_symbol ++ formatTwoDecimals q

/-- The two values pdf.add_tax_and_balance stores back into the form.
The Python code stores str() renderings of floats and re-parses them
downstream; the str/float round trip is exact, so the model carries the
values themselves. -/
structure TaxBalance where
  tax : Dec
  balance : Dec
  deriving DecidableEq, Repr

/-- Embedding of pdf.add_tax_and_balance. The tax entry (the rate) is
overwritten with the tax amount before the balance is computed, so the
balance adds the subtotal to the amount, not to the rate. -/
def add_tax_and_balance (tax subtotal : String) : Option TaxBalance :=
  match parseDecimal tax, parseDecimal subtotal with
  | some r, some s =>
    let t := r.mul s
    some { tax := t, balance := t.add s }
  | _, _ => none

/-- The three formatted strings pdf.format_subtotal_tax_and_balance
stores back into the form. -/
structure FormattedTotals where
  subtotal : String
  tax : String
  balance : String
  deriving DecidableEq, Repr

/-- Embedding of pdf.format_subtotal_tax_and_balance: the subtotal is
still the raw request string and is re-parsed; the tax and balance carry
the values stored by add_tax_and_balance; the balance gets the fixed
currency prefix the source passes ("??"). -/
def format_subtotal_tax_and_balance (subtotal : String) (tb : TaxBalance) :
    Option FormattedTotals :=
  match format_quantity_string subtotal with
  | some sub =>
    some { subtotal := sub, tax := formatTwoDecimals tb.tax,
           balance := "??" ++ formatTwoDecimals tb.balance }
  | none => none

/-- One step of the loop in pdf.add_line_items_amount: parse the unit
cost and the quantity with float() and add the amount entry rendered with
the .2f specifier. -/
def add_line_item_amount (li : LineItem) : Option LineItemA :=
  match parseDecimal li.cost_per_item, parseDecimal li.count with
  | some c, some q =>
    some ⟨li.description, li.cost_per_item, li.count, formatTwoDecimals (c.mul q)⟩
  | _, _ => none

/-- Embedding of pdf.add_line_items_amount. -/
def add_line_items_amount (line_items : List LineItem) : Option (List LineItemA) :=
  mapO add_line_item_amount line_items

/-- One step of the loop in pdf.format_line_items: reformat the unit cost
to two decimal places; the amount entry is left untouched. -/
def format_line_item (li : LineItemA) : Option LineItemA :=
  match format_quantity_string li.cost_per_item with
  | some c => some { li with cost_per_item := c }
  | none => none

/-- Embedding of pdf.format_line_items. -/
def format_line_items (line_items : List LineItemA) : Option (List LineItemA) :=
  mapO format_line_item line_items

/-- The list built by pdf.format_address_line before joining: name line,
address line 1, city and post code, with address line 2 inserted in third
position when it is non-empty (Python: truthy). -/
def address_lines (f : InvoiceForm) : List String :=
  let address := [f.first_name ++ " " ++ f.last_name, f.address_line_1, f.city,
    f.post_code]
  if f.address_line_2 ≠ "" then address.insertIdx 2 f.address_line_2 else address

/-- Embedding of pdf.format_address_line: the newline-join of the
composed address lines. -/
def format_address_line (f : InvoiceForm) : String :=
  String.intercalate "\n" (address_lines f)

/-- Embedding of pdf.format_terms_line, applied after the dates are
localized, so the cited pay date is the UK-formatted one. -/
def format_terms_line (pay_date : String) : String :=
  "Pay on or before " ++ pay_date ++ "."

/-- The normalized invoice: the dict after pdf.format_invoice_form_input,
with the raw name, address and pay-date entries deleted by
delete_unused_keys. The field order matches the Python dict insertion
order (the request fields arrive alphabetically sorted from
inspect.getmembers; balance, address and terms are appended in that
order by the normalization steps). -/
structure NormalizedInvoice where
  invoice_date : String
  invoice_number : String
  line_items : List LineItemA
  subtotal : String
  tax : String
  balance : String
  address : String
  terms : String
  deriving DecidableEq, Repr

/-- Embedding of pdf.format_invoice_form_input: the normalization steps
in source order. None models the first ValueError raised by float() or
strptime. The record constructor at the end plays the role of
delete_unused_keys: the raw name, address and pay-date fields do not
survive into the normalized form. -/
def format_invoice_form_input (f : InvoiceForm) : Option NormalizedInvoice :=
  match add_tax_and_balance f.tax f.subtotal with
  | none => none
  | some tb =>
    match add_line_items_amount f.line_items with
    | none => none
    | some itemsA =>
      match format_line_items itemsA with
      | none => none
      | some itemsF =>
        match format_subtotal_tax_and_balance f.subtotal tb with
        | none => none
        | some totals =>
          match format_uk_date f.invoice_date, format_uk_date f.pay_date with
          | some invoice_date_uk, some pay_date_uk =>
            some { invoice_date := invoice_date_uk, invoice_number := f.invoice_number,
                   line_items := itemsF, subtotal := totals.subtotal, tax := totals.tax,
                   balance := totals.balance, address := format_address_line f,
                   terms := format_terms_line pay_date_uk }
          | _, _ => none

/-- A position/style record of the layout descriptor: x and y origin in
millimetres, font name and size, as consumed by write_text_to_overlay. -/
structure LayoutSlot where
  x_origin : Dec
  y_origin : Dec
  font : String
  size : Dec
  deriving DecidableEq, Repr

/-- A layout entry: a plain slot for a scalar field, or the table of
per-sub-field slots under the line_items key. -/
inductive LayoutEntry
  | slot (s : LayoutSlot)
  | table (sub : List (String × LayoutSlot))
  deriving DecidableEq, Repr

/-- The layout descriptor: field name to entry, as loaded from the layout
JSON resource. -/
abbrev Layout := List (String × LayoutEntry)

/-- The errors page generation can raise. missingLayoutKey stands for the
KeyError raised when a field has no layout entry; typeMismatch for the
failures of indexing a layout entry of the wrong shape; typeError for
the TypeError raised by calling format_uk_date with the unexpected
separator keyword; valueError for the ValueError raised by strptime and
float(). -/
inductive PdfError
  | missingLayoutKey (key : String)
  | typeMismatch (key : String)
  | typeError
  | valueError
  deriving DecidableEq, Repr

/-- One drawing operation on the overlay: the line of text, the layout
slot it is drawn with, and the x/y offsets applied to the slot origin.
Embedding of pdf.write_text_to_overlay, which mutates the canvas text
object; the overlay is the list of such operations. -/
structure DrawOp where
  line : String
  slot : LayoutSlot
  x_offset : Dec
  y_offset : Dec
  deriving DecidableEq, Repr

def write_text_to_overlay (line : String) (slot : LayoutSlot)
    (x_offset y_offset : Dec) : DrawOp :=
  ⟨line, slot, x_offset, y_offset⟩

/-- Look up a scalar field slot; KeyError when absent, a shape failure
when the entry is the line-items table. -/
def lookupSlot (layout : Layout) (key : String) : Except PdfError LayoutSlot :=
  match List.lookup key layout with
  | some (.slot s) => .ok s
  | some (.table _) => .error (.typeMismatch key)
  | none => .error (.missingLayoutKey key)

/-- Look up the line-items sub-slot table; KeyError when absent. -/
def lookupTable (layout : Layout) (key : String) :
    Except PdfError (List (String × LayoutSlot)) :=
  match List.lookup key layout with
  | some (.table sub) => .ok sub
  | some (.slot _) => .error (.typeMismatch key)
  | none => .error (.missingLayoutKey key)

/-- Look up one line-item sub-field slot; KeyError when absent. -/
def lookupSubSlot (sub : List (String × LayoutSlot)) (key : String) :
    Except PdfError LayoutSlot :=
  match List.lookup key sub with
  | some s => .ok s
  | none => .error (.missingLayoutKey key)

/-- The entries of a normalized line-item dict in insertion order:
the three request keys followed by the derived amount. -/
def line_item_entries (li : LineItemA) : List (String × String) :=
  [("description", li.description), ("cost_per_item", li.cost_per_item),
   ("count", li.count), ("amount", li.amount)]

/-- Draw one line item: each sub-field at its configured slot, shifted
down by the running offset. -/
def write_line_item (sub : List (String × LayoutSlot)) (y_offset : Dec)
    (li : LineItemA) : Except PdfError (List DrawOp) :=
  mapE (fun kv =>
    match lookupSubSlot sub kv.1 with
    | .ok s => .ok (write_text_to_overlay kv.2 s ⟨0, 1⟩ y_offset)
    | .error e => .error e) (line_item_entries li)

/-- Embedding of pdf.write_line_items: successive items move down five
millimetres (the offset starts at 0 and decreases by 5 per item). -/
def write_line_items (line_items : List LineItemA)
    (sub : List (String × LayoutSlot)) : Except PdfError (List DrawOp) :=
  match mapE (fun p => write_line_item sub ⟨-5 * (p.1 : Int), 1⟩ p.2)
      (enumFrom 0 line_items) with
  | .ok opss => .ok opss.flatten
  | .error e => .error e

/-- The page footer text: page_number is 0-based in the source, the
display is 1-based. -/
def page_number_line (page_number total_pages : Nat) : String :=
  "Page " ++ natToString (page_number + 1) ++ " of " ++ natToString total_pages

def turn_over_line : String := "(Invoice continues overleaf)"

/-- Embedding of pdf.write_page_number: always draw the footer; draw the
turn-over prompt only when the page is not the last. -/
def write_page_number (page_number total_pages : Nat) (layout : Layout) :
    Except PdfError (List DrawOp) :=
  match lookupSlot layout "page_number_line" with
  | .error e => .error e
  | .ok s1 =>
    let op1 := write_text_to_overlay (page_number_line page_number total_pages) s1
      ⟨0, 1⟩ ⟨0, 1⟩
    if page_number + 1 < total_pages then
      match lookupSlot layout "turn_over_line" with
      | .error e => .error e
      | .ok s2 => .ok [op1, write_text_to_overlay turn_over_line s2 ⟨0, 1⟩ ⟨0, 1⟩]
    else
      .ok [op1]

/-- A value in the normalized form dict: a display string, or the list of
line items under the line_items key. -/
inductive FieldVal
  | scalar (s : String)
  | items (line_items : List LineItemA)
  deriving DecidableEq, Repr

/-- The normalized form as the dict the renderer iterates: field name to
value, in Python dict insertion order. -/
def normalized_fields (n : NormalizedInvoice) : List (String × FieldVal) :=
  [("invoice_date", .scalar n.invoice_date),
   ("invoice_number", .scalar n.invoice_number),
   ("line_items", .items n.line_items),
   ("subtotal", .scalar n.subtotal),
   ("tax", .scalar n.tax),
   ("balance", .scalar n.balance),
   ("address", .scalar n.address),
   ("terms", .scalar n.terms)]

/-- One iteration of the field loop in pdf.generate_invoice_overlay: the
line_items key dispatches to write_line_items, every other field is drawn
at its own slot. -/
def render_field (layout : Layout) (field : String) (v : FieldVal) :
    Except PdfError (List DrawOp) :=
  if field = "line_items" then
    match v with
    | .items its =>
      match lookupTable layout "line_items" with
      | .ok sub => write_line_items its sub
      | .error e => .error e
    | .scalar _ => .error (.typeMismatch field)
  else
    match v with
    | .scalar s =>
      match lookupSlot layout field with
      | .ok slot => .ok [write_text_to_overlay s slot ⟨0, 1⟩ ⟨0, 1⟩]
      | .error e => .error e
    | .items _ => .error (.typeMismatch field)

/-- Embedding of pdf.generate_invoice_overlay: draw every field of the
form, then the page number block. The returned operation list is the
overlay content. -/
def generate_invoice_overlay (fields : List (String × FieldVal)) (layout : Layout)
    (page_number total_pages : Nat) : Except PdfError (List DrawOp) :=
  match mapE (fun p => render_field layout p.1 p.2) fields with
  | .error e => .error e
  | .ok fieldOps =>
    match write_page_number page_number total_pages layout with
    | .error e => .error e
    | .ok pageOps => .ok (fieldOps.flatten ++ pageOps)

/-- Embedding of pdf.generate_invoice_pages: paginate the line items,
then render one overlay per chunk with the shared total page count. Each
overlay is merged onto a fresh copy of the blank template page; the
template contributes no drawn text, so a page is modelled by its overlay
operations. -/
def generate_invoice_pages (n : NormalizedInvoice) (layout : Layout) :
    Except PdfError (List (List DrawOp)) :=
  let line_item_lists := generate_line_item_lists n.line_items
  let total_pages := line_item_lists.length
  mapE (fun p =>
      generate_invoice_overlay (normalized_fields { n with line_items := p.2 })
        layout p.1 total_pages)
    (enumFrom 0 line_item_lists)

/-- Embedding of pdf.generate_output_path: invoices/ plus an
underscore-join of a fixed prefix, the client names and the date part,
made absolute against the application root. The invoice number is not
part of the name. The date part comes from format_uk_date called with
the separator keyword that utility.format_uk_date does not declare, so
in the frozen source the call raises TypeError unconditionally and the
function never returns a path. -/
def generate_output_path (root : String) (f : InvoiceForm) : Option String :=
  (format_uk_date_separator_call f.invoice_date "_").map fun date_part =>
    generate_absolute_path root
      ("invoices/"
        ++ String.intercalate "_" ["Invoice_for", f.first_name, f.last_name, date_part]
        ++ ".pdf")

/-- Embedding of pdf.generate_invoice. The first component is the result
(the output path, or the first error raised); the second is the trace of
file writes. The output file is opened only after every page has been
generated, so an error leaves the write trace empty. Because
generate_output_path is the first statement and raises TypeError for
every input in the frozen source, the branches past it are unreachable
there; they mirror the remaining source text. -/
def generate_invoice (root : String) (layout : Layout) (f : InvoiceForm) :
    Except PdfError String × List (String × List (List DrawOp)) :=
  match generate_output_path root f with
  | none => (.error .typeError, [])
  | some output_path =>
    match format_invoice_form_input f with
    | none => (.error .valueError, [])
    | some n =>
      match generate_invoice_pages n layout with
      | .error e => (.error e, [])
      | .ok pages => (.ok output_path, [(output_path, pages)])

/-- A layout descriptor is well formed when the line_items entry (if
present) is the sub-slot table and every other entry is a plain slot, as
in the layout JSON resources. -/
def layoutWellFormed (layout : Layout) : Prop :=
  ∀ p ∈ layout, (p.1 = "line_items" → ∃ sub, p.2 = LayoutEntry.table sub)
    ∧ (p.1 ≠ "line_items" → ∃ s, p.2 = LayoutEntry.slot s)

/-- The errors that stand for a Python KeyError on the layout dict. -/
def IsMissingKey : PdfError → Prop
  | .missingLayoutKey _ => True
  | _ => False

end Pdf

namespace Mailer

/-- The outcome of the SES send_raw_email call as EmailManager.send_email
observes it: a response dict, modelled by its key set, or a raised
ClientError. -/
inductive SesOutcome
  | response (keys : List String)
  | clientError
  deriving DecidableEq, Repr

/-- Embedding of mailer.EmailManager.send_email. The source returns True
when the response carries a MessageId, returns False from the ClientError
handler, and falls off the end of the function otherwise, which in Python
produces None: the Option models that implicit None. -/
def send_email (outcome : SesOutcome) : Option Bool :=
  match outcome with
  | .response keys => if "MessageId" ∈ keys then some true else none
  | .clientError => some false

end Mailer

namespace Db

/-- A row of the address table: the six client columns in
api.client_db_row_schema order. -/
abbrev AddressRow := List String

/-- Modelled from the spec: the address table schema (created outside
src/) enforces uniqueness of the full six-column row, so the
"insert or ignore" statement executed by db.SqliteConnector.enter_address
leaves the table unchanged when the row is already present and appends it
otherwise. -/
def enter_address (db : List AddressRow) (row : AddressRow) : List AddressRow :=
  if row ∈ db then db else db ++ [row]

end Db

namespace Api

open Db

/-- The delivery method of an /invoice request. -/
inductive Method
  | download
  | email
  deriving DecidableEq, Repr

/-- The six-column address row api.add_client extracts from a request
body, in client_db_row_schema order. -/
def client_db_row (f : Pdf.InvoiceForm) : AddressRow :=
  [f.first_name, f.last_name, f.address_line_1, f.address_line_2, f.city,
   f.post_code]

/-- The observable steps of handling an /invoice request, in order. -/
inductive ApiEvent
  | insertAddress (row : AddressRow)
  | generateInvoice (result : Except Pdf.PdfError String)
  | fileResponse (path : String)
  | emailSend (success : Option Bool)

/-- Embedding of api.download_invoice: generate the invoice, then return
the file at the generated path (an error propagates before any
response). -/
def download_invoice (root : String) (layout : Pdf.Layout) (f : Pdf.InvoiceForm) :
    List ApiEvent :=
  let r := Pdf.generate_invoice root layout f
  ApiEvent.generateInvoice r.1 ::
    (match r.1 with
     | .ok path => [ApiEvent.fileResponse path]
     | .error _ => [])

/-- Embedding of api.email_invoice: generate the invoice, then send it
through SES (an error in generation propagates before any send). -/
def email_invoice (root : String) (layout : Pdf.Layout) (ses : Mailer.SesOutcome)
    (f : Pdf.InvoiceForm) : List ApiEvent :=
  let r := Pdf.generate_invoice root layout f
  ApiEvent.generateInvoice r.1 ::
    (match r.1 with
     | .ok _ => [ApiEvent.emailSend (Mailer.send_email ses)]
     | .error _ => [])

/-- Embedding of the /invoice endpoint (api.root): the request is first
routed through add_client_using_invoice (which drops the invoice number,
sets the method to add and stores the six address columns through
SqliteConnector.enter_address), and only then dispatched on the delivery
method. The result is the new address table and the ordered event
trace. -/
def invoice_endpoint (db : List AddressRow) (root : String) (layout : Pdf.Layout)
    (ses : Mailer.SesOutcome) (f : Pdf.InvoiceForm) (m : Method) :
    List AddressRow × List ApiEvent :=
  let row := client_db_row f
  let db2 := enter_address db row
  let tail :=
    match m with
    | .download => download_invoice root layout f
    | .email => email_invoice root layout ses f
  (db2, ApiEvent.insertAddress row :: tail)

end Api

namespace Pdf

/-- A sample request form used by concrete witnesses. -/
def sampleForm : InvoiceForm :=
  { first_name := "Ada", last_name := "Lovelace",
    address_line_1 := "12 Gower Street", address_line_2 := "",
    city := "London", post_code := "WC1E 6BT",
    invoice_number := "0001", invoice_date := "2023-01-05",
    pay_date := "2023-02-05",
    line_items := [⟨"Widget", "2.5", "4"⟩],
    tax := "0.2", subtotal := "10" }

/-- The sample form with only the invoice number changed. -/
def sampleForm2 : InvoiceForm := { sampleForm with invoice_number := "0002" }

/-- The sample form with a non-empty second address line. -/
def sampleForm3 : InvoiceForm := { sampleForm with address_line_2 := "Flat 3" }

/-- A well-formed sample layout slot. -/
def sampleSlot : LayoutSlot := ⟨⟨20, 1⟩, ⟨250, 1⟩, "Helvetica", ⟨12, 1⟩⟩

/-- A sample layout covering every normalized field. -/
def sampleLayout : Layout :=
  [("invoice_date", .slot sampleSlot), ("invoice_number", .slot sampleSlot),
   ("line_items", .table [("description", sampleSlot), ("cost_per_item", sampleSlot),
     ("count", sampleSlot), ("amount", sampleSlot)]),
   ("subtotal", .slot sampleSlot), ("tax", .slot sampleSlot),
   ("balance", .slot sampleSlot), ("address", .slot sampleSlot),
   ("terms", .slot sampleSlot), ("page_number_line", .slot sampleSlot),
   ("turn_over_line", .slot sampleSlot)]

/-- The sample layout with the balance entry removed. -/
def sampleLayoutMissing : Layout :=
  [("invoice_date", .slot sampleSlot), ("invoice_number", .slot sampleSlot),
   ("line_items", .table [("description", sampleSlot), ("cost_per_item", sampleSlot),
     ("count", sampleSlot), ("amount", sampleSlot)]),
   ("subtotal", .slot sampleSlot), ("tax", .slot sampleSlot),
   ("address", .slot sampleSlot),
   ("terms", .slot sampleSlot), ("page_number_line", .slot sampleSlot),
   ("turn_over_line", .slot sampleSlot)]

end Pdf

namespace Pdf

/-- One chunking step: a nonempty list yields its first ten items and the
chunks of the rest. -/
theorem generate_line_item_lists_cons (l : List α) (h : l ≠ []) :
    generate_line_item_lists l = l.take 10 :: generate_line_item_lists (l.drop 10) := by
  have hlen : 1 ≤ l.length := by
    cases l with
    | nil => exact absurd rfl h
    | cons a t => simp
  have hq : (l.length + 9) / 10 = ((l.length - 10) + 9) / 10 + 1 := by omega
  unfold generate_line_item_lists
  rw [List.length_drop, hq, List.range_succ_eq_map]
  simp only [List.map_cons, List.map_map, Nat.mul_zero, List.drop_zero]
  congr 1
  apply List.map_congr_left
  intro i _
  simp only [Function.comp_apply, List.drop_drop]
  congr 2
  omega

theorem generate_line_item_lists_nil :
    generate_line_item_lists ([] : List α) = [] := by
  simp [generate_line_item_lists]

/-- Auxiliary strong induction on length: concatenating the chunks gives
back the original list. -/
theorem glil_join_aux : ∀ (n : Nat) (l : List α), l.length ≤ n →
    (generate_line_item_lists l).flatten = l := by
  intro n
  induction n with
  | zero =>
    intro l h
    have : l = [] := by
      cases l with
      | nil => rfl
      | cons a t => simp at h
    subst this
    simp [generate_line_item_lists_nil]
  | succ n ih =>
    intro l h
    by_cases hl : l = []
    · subst hl; simp [generate_line_item_lists_nil]
    · rw [generate_line_item_lists_cons l hl, List.flatten_cons]
      have hlen : 1 ≤ l.length := by
        cases l with
        | nil => exact absurd rfl hl
        | cons a t => simp
      rw [ih (l.drop 10) (by rw [List.length_drop]; omega)]
      exact List.take_append_drop 10 l

theorem glil_chunks_aux : ∀ (n : Nat) (l : List α), l.length ≤ n →
    ∀ c ∈ generate_line_item_lists l, c ≠ [] ∧ c.length ≤ 10 := by
  intro n
  induction n with
  | zero =>
    intro l h c hc
    have : l = [] := by
      cases l with
      | nil => rfl
      | cons a t => simp at h
    subst this
    rw [generate_line_item_lists_nil] at hc
    simp at hc
  | succ n ih =>
    intro l h c hc
    by_cases hl : l = []
    · subst hl; rw [generate_line_item_lists_nil] at hc; simp at hc
    · rw [generate_line_item_lists_cons l hl] at hc
      rcases List.mem_cons.mp hc with hc | hc
      · subst hc
        constructor
        · cases l with
          | nil => exact absurd rfl hl
          | cons a t => simp [List.take]
        · rw [List.length_take]; omega
      · exact ih (l.drop 10) (by rw [List.length_drop]; cases l with
          | nil => exact absurd rfl hl
          | cons a t => simp at h ⊢; omega) c hc

theorem glil_full_aux : ∀ (n : Nat) (l : List α), l.length ≤ n →
    ∀ i, i + 1 < (generate_line_item_lists l).length →
      ((generate_line_item_lists l).getD i []).length = 10 := by
  intro n
  induction n with
  | zero =>
    intro l h i hi
    have : l = [] := by
      cases l with
      | nil => rfl
      | cons a t => simp at h
    subst this
    rw [generate_line_item_lists_nil] at hi
    simp at hi
  | succ n ih =>
    intro l h i hi
    by_cases hl : l = []
    · subst hl; rw [generate_line_item_lists_nil] at hi; simp at hi
    · rw [generate_line_item_lists_cons l hl] at hi ⊢
      cases i with
      | zero =>
        have hrest : generate_line_item_lists (l.drop 10) ≠ [] := by
          intro hr
          rw [List.length_cons, hr] at hi
          simp at hi
        have hdrop : l.drop 10 ≠ [] := by
          intro hd
          rw [hd, generate_line_item_lists_nil] at hrest
          exact hrest rfl
        have : 10 < l.length := by
          by_contra hle
          exact hdrop (List.drop_of_length_le (by omega))
        simp [List.length_take]
        omega
      | succ i =>
        have hlen : 1 ≤ l.length := by
          cases l with
          | nil => exact absurd rfl hl
          | cons a t => simp
        simp only [List.getD_cons_succ]
        exact ih (l.drop 10) (by rw [List.length_drop]; omega) i
          (by simp only [List.length_cons] at hi; omega)

end Pdf

/-- C1: paginating any line-item sequence with capacity 10 yields
contiguous chunks whose concatenation reproduces the original sequence in
order, with no empty chunk, every chunk of length at most 10, and every
chunk except the last of length exactly 10. -/
theorem C1_generate_line_item_lists_spec (l : List α) :
    (Pdf.generate_line_item_lists l).flatten = l
    ∧ (∀ c ∈ Pdf.generate_line_item_lists l, c ≠ [] ∧ c.length ≤ 10)
    ∧ (∀ i, i + 1 < (Pdf.generate_line_item_lists l).length →
        ((Pdf.generate_line_item_lists l).getD i []).length = 10) :=
  ⟨Pdf.glil_join_aux l.length l (Nat.le_refl _),
   Pdf.glil_chunks_aux l.length l (Nat.le_refl _),
   Pdf.glil_full_aux l.length l (Nat.le_refl _)⟩

/-- Witness for C1 at a 23-item list: chunk 1 is full and a concrete chunk
is nonempty and within capacity. -/
theorem C1_generate_line_item_lists_spec_witness :
    ((Pdf.generate_line_item_lists (List.range 23)).getD 1 []).length = 10
    ∧ ([20, 21, 22] ≠ ([] : List Nat) ∧ [20, 21, 22].length ≤ 10) :=
  ⟨(C1_generate_line_item_lists_spec (List.range 23)).2.2 1 (by decide),
   (C1_generate_line_item_lists_spec (List.range 23)).2.1 [20, 21, 22] (by decide)⟩

namespace Util

/-- mapO succeeds with a list of the same length. -/
theorem mapO_length (g : α → Option β) :
    ∀ (l : List α) (l2 : List β), mapO g l = some l2 → l2.length = l.length := by
  intro l
  induction l with
  | nil =>
    intro l2 h
    unfold mapO at h
    simp only [Option.some.injEq] at h
    subst h
    rfl
  | cons x xs ih =>
    intro l2 h
    unfold mapO at h
    cases hg : g x with
    | none => rw [hg] at h; simp at h
    | some y =>
      rw [hg] at h
      cases hr : mapO g xs with
      | none => rw [hr] at h; simp at h
      | some ys =>
        rw [hr] at h
        simp only [Option.some.injEq] at h
        subst h
        simp [ih ys hr]

/-- When each successful step preserves a projection, a successful mapO
run preserves the projected list. -/
theorem mapO_map_eq (g : α → Option α) (fA : α → γ)
    (hp : ∀ x y, g x = some y → fA y = fA x) :
    ∀ (l l2 : List α), mapO g l = some l2 → l2.map fA = l.map fA := by
  intro l
  induction l with
  | nil =>
    intro l2 h
    unfold mapO at h
    simp only [Option.some.injEq] at h
    subst h
    rfl
  | cons x xs ih =>
    intro l2 h
    unfold mapO at h
    cases hg : g x with
    | none => rw [hg] at h; simp at h
    | some y =>
      rw [hg] at h
      cases hr : mapO g xs with
      | none => rw [hr] at h; simp at h
      | some ys =>
        rw [hr] at h
        simp only [Option.some.injEq] at h
        subst h
        simp [hp x y hg, ih ys hr]

end Util

namespace Pdf

/-- A formatting step leaves the amount entry of a line item unchanged. -/
theorem format_line_item_amount_eq (li li2 : LineItemA)
    (h : format_line_item li = some li2) : li2.amount = li.amount := by
  unfold format_line_item at h
  cases hq : format_quantity_string li.cost_per_item with
  | none => rw [hq] at h; simp at h
  | some c =>
    rw [hq] at h
    simp only [Option.some.injEq] at h
    subst h
    rfl

end Pdf

/-- C2: with tax rate r and subtotal s, normalization stores the tax
amount r * s rendered to two decimals as a plain number, and the balance
r * s + s rendered with the fixed currency prefix of the source. -/
theorem C2_tax_and_balance_spec (tax subtotal : String) (r s : Util.Dec)
    (hr : Util.parseDecimal tax = some r) (hs : Util.parseDecimal subtotal = some s) :
    ∃ ft : Pdf.FormattedTotals,
      (Pdf.add_tax_and_balance tax subtotal).bind
          (Pdf.format_subtotal_tax_and_balance subtotal) = some ft
      ∧ ft.tax = Util.formatTwoDecimals (r.mul s)
      ∧ ft.balance = "??" ++ Util.formatTwoDecimals ((r.mul s).add s) := by
  refine ⟨⟨Util.formatTwoDecimals s, Util.formatTwoDecimals (r.mul s),
    "??" ++ Util.formatTwoDecimals ((r.mul s).add s)⟩, ?_, rfl, rfl⟩
  unfold Pdf.add_tax_and_balance Pdf.format_subtotal_tax_and_balance
    Pdf.format_quantity_string
  rw [hr, hs]
  simp [Option.bind]

/-- Witness for C2 at rate 0.2 and subtotal 100: tax 20.00, balance
??120.00. -/
theorem C2_tax_and_balance_spec_witness :
    Util.parseDecimal "0.2" = some ⟨2, 10⟩
    ∧ Util.parseDecimal "100" = some ⟨100, 1⟩
    ∧ ∃ ft : Pdf.FormattedTotals,
        (Pdf.add_tax_and_balance "0.2" "100").bind
            (Pdf.format_subtotal_tax_and_balance "100") = some ft
        ∧ ft.tax = Util.formatTwoDecimals (Util.Dec.mul ⟨2, 10⟩ ⟨100, 1⟩)
        ∧ ft.balance
            = "??" ++ Util.formatTwoDecimals
                ((Util.Dec.mul ⟨2, 10⟩ ⟨100, 1⟩).add ⟨100, 1⟩) :=
  ⟨by decide, by decide,
   C2_tax_and_balance_spec "0.2" "100" ⟨2, 10⟩ ⟨100, 1⟩ (by decide) (by decide)⟩

/-- C5: normalization derives each line-item amount as unit cost times
quantity rendered to two decimals, later steps (the unit-cost reformat
and the rest of the pipeline) never change a derived amount, and the
Widget round-trip example holds. -/
theorem C5_line_item_amount_spec :
    (∀ (li : Pdf.LineItem) (c q : Util.Dec),
        Util.parseDecimal li.cost_per_item = some c →
        Util.parseDecimal li.count = some q →
        Pdf.add_line_item_amount li
          = some ⟨li.description, li.cost_per_item, li.count,
              Util.formatTwoDecimals (c.mul q)⟩)
    ∧ (∀ (itemsA itemsF : List Pdf.LineItemA),
        Pdf.format_line_items itemsA = some itemsF →
        itemsF.map Pdf.LineItemA.amount = itemsA.map Pdf.LineItemA.amount)
    ∧ (∀ (f : Pdf.InvoiceForm) (n : Pdf.NormalizedInvoice),
        Pdf.format_invoice_form_input f = some n →
        ∃ itemsA, Pdf.add_line_items_amount f.line_items = some itemsA
          ∧ n.line_items.map Pdf.LineItemA.amount
              = itemsA.map Pdf.LineItemA.amount)
    ∧ Pdf.add_line_item_amount ⟨"Widget", "2.5", "4"⟩
        = some ⟨"Widget", "2.5", "4", "10.00"⟩
    ∧ Pdf.format_line_item ⟨"Widget", "2.5", "4", "10.00"⟩
        = some ⟨"Widget", "2.50", "4", "10.00"⟩ := by
  refine ⟨?_, ?_, ?_, by decide, by decide⟩
  · intro li c q hc hq
    unfold Pdf.add_line_item_amount
    rw [hc, hq]
  · intro itemsA itemsF h
    exact Util.mapO_map_eq Pdf.format_line_item Pdf.LineItemA.amount
      Pdf.format_line_item_amount_eq itemsA itemsF h
  · intro f n h
    unfold Pdf.format_invoice_form_input at h
    split at h
    · simp at h
    · rename_i tb h1
      split at h
      · simp at h
      · rename_i itemsA h2
        split at h
        · simp at h
        · rename_i itemsF h3
          split at h
          · simp at h
          · rename_i totals h4
            split at h
            · rename_i du pu h5 h6
              simp only [Option.some.injEq] at h
              subst h
              exact ⟨itemsA, h2,
                Util.mapO_map_eq Pdf.format_line_item Pdf.LineItemA.amount
                  Pdf.format_line_item_amount_eq itemsA itemsF h3⟩
            · simp at h

/-- Witness for C5 at the Widget example. -/
theorem C5_line_item_amount_spec_witness :
    Pdf.add_line_item_amount ⟨"Widget", "2.5", "4"⟩
      = some ⟨"Widget", "2.5", "4",
          Util.formatTwoDecimals (Util.Dec.mul ⟨25, 10⟩ ⟨4, 1⟩)⟩
    ∧ [Pdf.LineItemA.mk "Widget" "2.50" "4" "10.00"].map Pdf.LineItemA.amount
        = [Pdf.LineItemA.mk "Widget" "2.5" "4" "10.00"].map Pdf.LineItemA.amount :=
  ⟨C5_line_item_amount_spec.1 ⟨"Widget", "2.5", "4"⟩ ⟨25, 10⟩ ⟨4, 1⟩
      (by decide) (by decide),
   C5_line_item_amount_spec.2.1 [⟨"Widget", "2.5", "4", "10.00"⟩]
      [⟨"Widget", "2.50", "4", "10.00"⟩] (by decide)⟩

/-- C7: the composed address block is the newline-join of the name line,
address line 1, optionally address line 2, city and post code, in that
order: four lines when line 2 is empty, five lines with line 2 third
otherwise. -/
theorem C7_format_address_line_spec (f : Pdf.InvoiceForm) :
    Pdf.format_address_line f = String.intercalate "\n" (Pdf.address_lines f)
    ∧ (f.address_line_2 = "" →
        Pdf.address_lines f
          = [f.first_name ++ " " ++ f.last_name, f.address_line_1, f.city,
             f.post_code])
    ∧ (f.address_line_2 ≠ "" →
        Pdf.address_lines f
          = [f.first_name ++ " " ++ f.last_name, f.address_line_1,
             f.address_line_2, f.city, f.post_code]) := by
  refine ⟨rfl, ?_, ?_⟩ <;> intro h <;> simp [Pdf.address_lines, h]

/-- Witness for C7 at the sample forms: four lines without a second
address line, five lines with one. -/
theorem C7_format_address_line_spec_witness :
    Pdf.address_lines Pdf.sampleForm
      = ["Ada Lovelace", "12 Gower Street", "London", "WC1E 6BT"]
    ∧ Pdf.address_lines Pdf.sampleForm3
      = ["Ada Lovelace", "12 Gower Street", "Flat 3", "London", "WC1E 6BT"] := by
  constructor
  · have h := (C7_format_address_line_spec Pdf.sampleForm).2.1 (by decide)
    rw [h]; decide
  · have h := (C7_format_address_line_spec Pdf.sampleForm3).2.2 (by decide)
    rw [h]; decide

/-- C4: for every rendered page (0-based page_number below total_pages),
write_page_number always draws the 1-based "Page i of N" footer, and
draws the turn-over notice exactly when the page is not the last. -/
theorem C4_write_page_number_spec (layout : Pdf.Layout) (s1 s2 : Pdf.LayoutSlot)
    (page_number total_pages : Nat)
    (h1 : List.lookup "page_number_line" layout = some (.slot s1))
    (h2 : List.lookup "turn_over_line" layout = some (.slot s2))
    (hp : page_number < total_pages) :
    ∃ ops, Pdf.write_page_number page_number total_pages layout = .ok ops
      ∧ ops.map Pdf.DrawOp.line
        = Pdf.page_number_line page_number total_pages
          :: (if page_number + 1 < total_pages then [Pdf.turn_over_line] else []) := by
  unfold Pdf.write_page_number Pdf.lookupSlot
  rw [h1, h2]
  by_cases hc : page_number + 1 < total_pages
  · refine ⟨[Pdf.write_text_to_overlay (Pdf.page_number_line page_number total_pages)
        s1 ⟨0, 1⟩ ⟨0, 1⟩,
      Pdf.write_text_to_overlay Pdf.turn_over_line s2 ⟨0, 1⟩ ⟨0, 1⟩], ?_, ?_⟩
    · simp [hc]
    · simp [hc, Pdf.write_text_to_overlay]
  · refine ⟨[Pdf.write_text_to_overlay (Pdf.page_number_line page_number total_pages)
        s1 ⟨0, 1⟩ ⟨0, 1⟩], ?_, ?_⟩
    · simp [hc]
    · simp [hc, Pdf.write_text_to_overlay]

/-- Witness for C4 on the sample layout: page 1 of 2 carries the
turn-over prompt after its footer, as the theorem instantiates. -/
theorem C4_write_page_number_spec_witness :
    ∃ ops, Pdf.write_page_number 0 2 Pdf.sampleLayout = .ok ops
      ∧ ops.map Pdf.DrawOp.line
        = Pdf.page_number_line 0 2 :: (if 0 + 1 < 2 then [Pdf.turn_over_line] else []) :=
  C4_write_page_number_spec Pdf.sampleLayout Pdf.sampleSlot Pdf.sampleSlot 0 2
    (by decide) (by decide) (by decide)

/-- C3 counterexample: at a concrete well-formed request,
generate_output_path returns no path at all, because its call
format_uk_date(..., separator="_") raises TypeError in the frozen source
(utility.format_uk_date declares no separator parameter); in particular
two forms that differ only in the invoice number do not map to distinct
paths — they behave identically. -/
theorem C3_generate_output_path_counterexample :
    Pdf.generate_output_path "/app" Pdf.sampleForm = none
    ∧ Pdf.sampleForm.invoice_number ≠ Pdf.sampleForm2.invoice_number
    ∧ Pdf.generate_output_path "/app" Pdf.sampleForm
        = Pdf.generate_output_path "/app" Pdf.sampleForm2 := by
  refine ⟨?_, ?_, ?_⟩ <;> decide

/-- C3 amended: generate_output_path never returns a path. Its first
action calls format_uk_date with the separator keyword the frozen
utility.format_uk_date does not declare, so every invocation raises
TypeError; consequently the result does not depend on the invoice number
(or on anything else): all forms behave identically. -/
theorem C3_generate_output_path_spec (root : String) (f : Pdf.InvoiceForm) :
    Pdf.generate_output_path root f = none
    ∧ (∀ g : Pdf.InvoiceForm,
        Pdf.generate_output_path root g = Pdf.generate_output_path root f) :=
  ⟨rfl, fun g => rfl⟩

/-- C9: EmailManager.send_email returns True when the transport response
carries a MessageId and False when the transport raises ClientError, but
on a response without a MessageId it falls off the end of the function
and returns None rather than False, contradicting its docstring, its bool
annotation and the claim. -/
theorem C9_send_email_result :
    Mailer.send_email (.response []) = none
    ∧ Mailer.send_email (.response []) ≠ some false
    ∧ Mailer.send_email (.response ["MessageId"]) = some true
    ∧ Mailer.send_email .clientError = some false := by
  refine ⟨?_, ?_, ?_, ?_⟩ <;> decide

/-- C10: every /invoice request first stores the six-column client row
through the insert-or-ignore path and only then generates the invoice,
for both delivery methods; a row already present leaves the store
unchanged. -/
theorem C10_invoice_endpoint_inserts_client (db : List Db.AddressRow)
    (root : String) (layout : Pdf.Layout) (ses : Mailer.SesOutcome)
    (f : Pdf.InvoiceForm) (m : Api.Method) :
    (Api.invoice_endpoint db root layout ses f m).1
        = Db.enter_address db (Api.client_db_row f)
    ∧ (∃ res rest, (Api.invoice_endpoint db root layout ses f m).2
        = Api.ApiEvent.insertAddress (Api.client_db_row f)
          :: Api.ApiEvent.generateInvoice res :: rest)
    ∧ (Api.client_db_row f ∈ db →
        (Api.invoice_endpoint db root layout ses f m).1 = db) := by
  refine ⟨rfl, ?_, ?_⟩
  · cases m
    · exact ⟨(Pdf.generate_invoice root layout f).1, _, rfl⟩
    · exact ⟨(Pdf.generate_invoice root layout f).1, _, rfl⟩
  · intro h
    simp [Api.invoice_endpoint, Db.enter_address, h]

/-- Witness for C10: a request whose client row is already stored leaves
the address table unchanged. -/
theorem C10_invoice_endpoint_inserts_client_witness :
    (Api.invoice_endpoint [Api.client_db_row Pdf.sampleForm] "/app"
        Pdf.sampleLayout (Mailer.SesOutcome.response ["MessageId"]) Pdf.sampleForm
        Api.Method.download).1
      = [Api.client_db_row Pdf.sampleForm] :=
  (C10_invoice_endpoint_inserts_client [Api.client_db_row Pdf.sampleForm] "/app"
    Pdf.sampleLayout (Mailer.SesOutcome.response ["MessageId"]) Pdf.sampleForm
    Api.Method.download).2.2 (by decide)

namespace Util

/-- splitOnChar never returns an empty group list. -/
theorem splitOnChar_ne_nil (sep : Char) (l : List Char) : splitOnChar sep l ≠ [] := by
  cases l with
  | nil => simp [splitOnChar]
  | cons c cs =>
    unfold splitOnChar
    by_cases hc : c = sep
    · simp [hc]
    · rw [if_neg hc]
      split <;> simp

/-- Joining the groups of a split restores the original character list. -/
theorem joinOnChar_splitOnChar (sep : Char) (l : List Char) :
    joinOnChar sep (splitOnChar sep l) = l := by
  induction l with
  | nil => rfl
  | cons c cs ih =>
    unfold splitOnChar
    by_cases hc : c = sep
    · rw [if_pos hc]
      cases h : splitOnChar sep cs with
      | nil => exact absurd h (splitOnChar_ne_nil sep cs)
      | cons g gs =>
        rw [h] at ih
        unfold joinOnChar
        rw [ih, hc]
        rfl
    · rw [if_neg hc]
      cases h : splitOnChar sep cs with
      | nil => exact absurd h (splitOnChar_ne_nil sep cs)
      | cons g gs =>
        rw [h] at ih
        cases gs with
        | nil =>
          unfold joinOnChar at ih ⊢
          rw [ih]
        | cons g2 gs2 =>
          unfold joinOnChar at ih ⊢
          rw [← ih]
          rfl

/-- A list without the separator splits into the single group holding it. -/
theorem splitOnChar_of_not_mem (sep : Char) (l : List Char) (h : sep ∉ l) :
    splitOnChar sep l = [l] := by
  induction l with
  | nil => rfl
  | cons c cs ih =>
    have hc : ¬ c = sep := fun he => h (he ▸ List.mem_cons_self c cs)
    have hcs : sep ∉ cs := fun hm => h (List.mem_cons_of_mem c hm)
    unfold splitOnChar
    rw [if_neg hc, ih hcs]

/-- Equation of splitOnChar at a non-separator head. -/
theorem splitOnChar_cons_ne (sep c : Char) (cs : List Char) (hc : ¬ c = sep) :
    splitOnChar sep (c :: cs)
      = match splitOnChar sep cs with
        | [] => [[c]]
        | g :: gs => (c :: g) :: gs := by
  conv_lhs => unfold splitOnChar
  rw [if_neg hc]

/-- Splitting at an explicit separator occurrence peels off the prefix
group when the prefix itself is separator-free. -/
theorem splitOnChar_append (sep : Char) (a b : List Char) (ha : sep ∉ a) :
    splitOnChar sep (a ++ sep :: b) = a :: splitOnChar sep b := by
  induction a with
  | nil => simp [splitOnChar]
  | cons c cs ih =>
    have hc : ¬ c = sep := fun he => ha (he ▸ List.mem_cons_self c cs)
    have hcs : sep ∉ cs := fun hm => ha (List.mem_cons_of_mem c hm)
    rw [List.cons_append, splitOnChar_cons_ne sep c (cs ++ sep :: b) hc, ih hcs]

/-- Characterization of a successful digit-group parse. -/
theorem parseDigits_eq_some (l : List Char) (n : Nat) :
    parseDigits l = some n ↔ (l ≠ [] ∧ l.all Char.isDigit ∧ n = digitsVal l) := by
  unfold parseDigits
  by_cases hcond : l ≠ [] ∧ l.all Char.isDigit
  · rw [if_pos hcond]
    simp only [Option.some.injEq]
    constructor
    · intro h
      exact ⟨hcond.1, hcond.2, h.symm⟩
    · intro h
      exact h.2.2.symm
  · rw [if_neg hcond]
    constructor
    · intro h
      exact absurd h (by simp)
    · intro h
      exact absurd ⟨h.1, h.2.1⟩ hcond

end Util

namespace Utility

open Util

/-- A digit character is not a dash. -/
theorem not_dash_mem_of_all_digit (l : List Char) (h : l.all Char.isDigit) :
    ('-') ∉ l :=
  fun hm => absurd (List.all_eq_true.mp h '-' hm) (by decide)

/-- Joining a three-group split. -/
theorem joinOnChar_three (sep : Char) (a b c : List Char) :
    joinOnChar sep [a, b, c] = a ++ sep :: (b ++ sep :: c) := rfl

/-- The date parser succeeds exactly on the strings described by
LenientDate, and returns their digit values. -/
theorem parse_iso_date_iff (s : String) (y m d : Nat) :
    parse_iso_date s = some (y, m, d) ↔ LenientDate s y m d := by
  constructor
  · intro h
    unfold parse_iso_date at h
    split at h
    · rename_i ys ms ds hsp
      split at h
      · rename_i y2 m2 d2 hpy hpm hpd
        split at h
        · rename_i hcond
          simp only [Option.some.injEq, Prod.mk.injEq] at h
          obtain ⟨hy2, hm2, hd2⟩ := h
          obtain ⟨hys1, hys2, hys3⟩ := (parseDigits_eq_some ys y2).mp hpy
          obtain ⟨hms1, hms2, hms3⟩ := (parseDigits_eq_some ms m2).mp hpm
          obtain ⟨hds1, hds2, hds3⟩ := (parseDigits_eq_some ds d2).mp hpd
          subst hy2; subst hm2; subst hd2
          refine ⟨ys, ms, ds, ?_, hys2, hms2, hds2, hcond.1, ?_, ?_,
            hys3, hms3, hds3, hcond.2.2.2.2.2.1, hcond.2.2.2.2.2.2.1,
            hcond.2.2.2.2.2.2.2.1, hcond.2.2.2.2.2.2.2.2.1,
            hcond.2.2.2.2.2.2.2.2.2⟩
          · rw [← joinOnChar_splitOnChar '-' s.data, hsp, joinOnChar_three]
          · omega
          · omega
        · simp at h
      · simp at h
    · simp at h
  · intro h
    obtain ⟨ys, ms, ds, hdata, hysd, hmsd, hdsd, hyl, hml, hdl, hy, hm, hd,
      hy1, hm1, hm2, hd1, hd2⟩ := h
    have hysn : ('-') ∉ ys := not_dash_mem_of_all_digit ys hysd
    have hmsn : ('-') ∉ ms := not_dash_mem_of_all_digit ms hmsd
    have hdsn : ('-') ∉ ds := not_dash_mem_of_all_digit ds hdsd
    have hsp : splitOnChar '-' s.data = [ys, ms, ds] := by
      rw [hdata, splitOnChar_append '-' ys (ms ++ '-' :: ds) hysn,
        splitOnChar_append '-' ms ds hmsn, splitOnChar_of_not_mem '-' ds hdsn]
    have hysne : ys ≠ [] := by
      intro h0
      rw [h0] at hyl
      simp at hyl
    have hmsne : ms ≠ [] := by
      intro h0
      rw [h0] at hml
      simp at hml
    have hdsne : ds ≠ [] := by
      intro h0
      rw [h0] at hdl
      simp at hdl
    subst hy; subst hm; subst hd
    have hpy := (parseDigits_eq_some ys (digitsVal ys)).mpr ⟨hysne, hysd, rfl⟩
    have hpm := (parseDigits_eq_some ms (digitsVal ms)).mpr ⟨hmsne, hmsd, rfl⟩
    have hpd := (parseDigits_eq_some ds (digitsVal ds)).mpr ⟨hdsne, hdsd, rfl⟩
    unfold parse_iso_date
    rw [hsp]
    simp only [hpy, hpm, hpd]
    rw [if_pos]
    refine ⟨hyl, ?_, ?_, ?_, ?_, hy1, hm1, hm2, hd1, hd2⟩ <;> omega

end Utility

/-- C6 counterexample: the input 2023-1-5 does not match the ISO
YYYY-MM-DD shape, yet format_uk_date succeeds on it (strptime accepts
one-digit month and day fields), so the claimed failure condition
(fails if and only if the input is not ISO) is false. -/
theorem C6_format_uk_date_counterexample :
    Utility.matches_iso "2023-1-5" = false
    ∧ Utility.format_uk_date "2023-1-5" = some "05/01/2023" := by
  refine ⟨?_, ?_⟩ <;> decide

/-- C6 amended: format_uk_date returns the zero-padded d/m/Y rendering
exactly on the strings LenientDate describes (four-digit year, dash,
one-or-two-digit month, dash, one-or-two-digit day forming a valid
calendar date); strictly ISO inputs are a special case, but non-padded
inputs succeed too, so failure is not equivalent to breaking the ISO
shape. The spec example localizes as claimed. -/
theorem C6_format_uk_date_spec (s : String) :
    (∀ y m d, Utility.LenientDate s y m d →
        Utility.format_uk_date s
          = some (Util.pad2 d ++ "/" ++ Util.pad2 m ++ "/" ++ Util.pad4 y))
    ∧ ((∀ y m d, ¬ Utility.LenientDate s y m d) →
        Utility.format_uk_date s = none)
    ∧ Utility.format_uk_date "2023-01-05" = some "05/01/2023" := by
  refine ⟨?_, ?_, by decide⟩
  · intro y m d h
    have hp := (Utility.parse_iso_date_iff s y m d).mpr h
    unfold Utility.format_uk_date
    rw [hp]
    rfl
  · intro hall
    unfold Utility.format_uk_date
    cases hp : Utility.parse_iso_date s with
    | none => rfl
    | some t =>
      rcases t with ⟨y, m, d⟩
      exact absurd ((Utility.parse_iso_date_iff s y m d).mp hp) (hall y m d)

/-- Witness for C6 amended at the spec example 2023-01-05. -/
theorem C6_format_uk_date_spec_witness :
    Utility.format_uk_date "2023-01-05"
      = some (Util.pad2 5 ++ "/" ++ Util.pad2 1 ++ "/" ++ Util.pad4 2023) :=
  (C6_format_uk_date_spec "2023-01-05").1 2023 1 5
    ⟨['2', '0', '2', '3'], ['0', '1'], ['0', '5'], by decide, by decide, by decide,
     by decide, by decide, by decide, by decide, by decide, by decide, by decide,
     by decide, by decide, by decide, by decide, by decide⟩

namespace Util

/-- A successful association-list lookup exhibits a member pair. -/
theorem mem_of_lookup_eq_some {β : Type _} {k : String} {v : β} :
    ∀ {l : List (String × β)}, List.lookup k l = some v → (k, v) ∈ l := by
  intro l
  induction l with
  | nil => intro h; simp [List.lookup] at h
  | cons p t ih =>
    intro h
    rcases p with ⟨a, b⟩
    unfold List.lookup at h
    cases hb : k == a with
    | true =>
      rw [hb] at h
      simp only [Option.some.injEq] at h
      subst h
      have : k = a := eq_of_beq hb
      subst this
      exact List.mem_cons_self _ _
    | false =>
      rw [hb] at h
      exact List.mem_cons_of_mem _ (ih h)

/-- An error coming out of mapE comes from one of the elements. -/
theorem mapE_error_elim (g : α → Except ε β) :
    ∀ (l : List α) (e : ε), mapE g l = .error e → ∃ x ∈ l, g x = .error e := by
  intro l
  induction l with
  | nil => intro e h; simp [mapE] at h
  | cons x xs ih =>
    intro e h
    unfold mapE at h
    cases hg : g x with
    | error e2 =>
      rw [hg] at h
      simp only [Except.error.injEq] at h
      subst h
      exact ⟨x, List.mem_cons_self _ _, hg⟩
    | ok y =>
      rw [hg] at h
      cases hr : mapE g xs with
      | error e2 =>
        rw [hr] at h
        simp only [Except.error.injEq] at h
        subst h
        obtain ⟨x2, hx2, hgx2⟩ := ih e2 hr
        exact ⟨x2, List.mem_cons_of_mem _ hx2, hgx2⟩
      | ok ys => rw [hr] at h; simp at h

/-- mapE fails whenever some element fails. -/
theorem mapE_error_of_mem (g : α → Except ε β) :
    ∀ (l : List α) (x : α), x ∈ l → ∀ e : ε, g x = .error e →
      ∃ e2, mapE g l = .error e2 := by
  intro l
  induction l with
  | nil => intro x hx; simp at hx
  | cons x0 xs ih =>
    intro x hx e hge
    unfold mapE
    cases hg : g x0 with
    | error e2 => exact ⟨e2, rfl⟩
    | ok y =>
      rcases List.mem_cons.mp hx with h | h
      · subst h
        rw [hge] at hg
        cases hg
      · obtain ⟨e2, he2⟩ := ih x h e hge
        rw [he2]
        exact ⟨e2, rfl⟩

end Util

namespace Pdf

open Util

/-- Under a well-formed layout, a scalar-slot lookup can only fail with a
missing-key error. -/
theorem lookupSlot_error_missing (layout : Layout) (key : String)
    (hwf : layoutWellFormed layout) (hk : key ≠ "line_items") (e : PdfError)
    (h : lookupSlot layout key = .error e) : IsMissingKey e := by
  unfold lookupSlot at h
  cases hl : List.lookup key layout with
  | none =>
    rw [hl] at h
    simp only [Except.error.injEq] at h
    subst h
    trivial
  | some entry =>
    rw [hl] at h
    cases entry with
    | slot s => simp at h
    | table sub =>
      obtain ⟨s, hs⟩ := (hwf (key, .table sub) (mem_of_lookup_eq_some hl)).2 hk
      cases hs

/-- Under a well-formed layout, the line-items table lookup can only fail
with a missing-key error. -/
theorem lookupTable_error_missing (layout : Layout)
    (hwf : layoutWellFormed layout) (e : PdfError)
    (h : lookupTable layout "line_items" = .error e) : IsMissingKey e := by
  unfold lookupTable at h
  cases hl : List.lookup "line_items" layout with
  | none =>
    rw [hl] at h
    simp only [Except.error.injEq] at h
    subst h
    trivial
  | some entry =>
    rw [hl] at h
    cases entry with
    | table sub => simp at h
    | slot s =>
      obtain ⟨sub, hs⟩ :=
        (hwf ("line_items", .slot s) (mem_of_lookup_eq_some hl)).1 rfl
      cases hs

/-- A sub-slot lookup can only fail with a missing-key error. -/
theorem lookupSubSlot_error_missing (sub : List (String × LayoutSlot))
    (key : String) (e : PdfError) (h : lookupSubSlot sub key = .error e) :
    IsMissingKey e := by
  unfold lookupSubSlot at h
  cases hl : List.lookup key sub with
  | none =>
    rw [hl] at h
    simp only [Except.error.injEq] at h
    subst h
    trivial
  | some s => rw [hl] at h; simp at h

/-- Drawing one line item can only fail with a missing-key error. -/
theorem write_line_item_error_missing (sub : List (String × LayoutSlot))
    (y_offset : Dec) (li : LineItemA) (e : PdfError)
    (h : write_line_item sub y_offset li = .error e) : IsMissingKey e := by
  obtain ⟨kv, _, hkv⟩ := mapE_error_elim _ _ e h
  cases hs : lookupSubSlot sub kv.1 with
  | error e2 =>
    rw [hs] at hkv
    simp only [Except.error.injEq] at hkv
    subst hkv
    exact lookupSubSlot_error_missing sub kv.1 e2 hs
  | ok s => rw [hs] at hkv; simp at hkv

/-- Drawing the line items can only fail with a missing-key error. -/
theorem write_line_items_error_missing (line_items : List LineItemA)
    (sub : List (String × LayoutSlot)) (e : PdfError)
    (h : write_line_items line_items sub = .error e) : IsMissingKey e := by
  unfold write_line_items at h
  cases hm : mapE (fun p => write_line_item sub ⟨-5 * (p.1 : Int), 1⟩ p.2)
      (enumFrom 0 line_items) with
  | error e2 =>
    rw [hm] at h
    simp only [Except.error.injEq] at h
    subst h
    obtain ⟨p, _, hp⟩ := mapE_error_elim _ _ e2 hm
    exact write_line_item_error_missing sub _ p.2 e2 hp
  | ok opss => rw [hm] at h; simp at h

/-- Under a well-formed layout the page-number block can only fail with a
missing-key error. -/
theorem write_page_number_error_missing (page_number total_pages : Nat)
    (layout : Layout) (hwf : layoutWellFormed layout) (e : PdfError)
    (h : write_page_number page_number total_pages layout = .error e) :
    IsMissingKey e := by
  unfold write_page_number at h
  cases h1 : lookupSlot layout "page_number_line" with
  | error e2 =>
    rw [h1] at h
    simp only [Except.error.injEq] at h
    subst h
    exact lookupSlot_error_missing layout _ hwf (by decide) e2 h1
  | ok s1 =>
    rw [h1] at h
    dsimp only at h
    by_cases hc : page_number + 1 < total_pages
    · rw [if_pos hc] at h
      cases h2 : lookupSlot layout "turn_over_line" with
      | error e2 =>
        rw [h2] at h
        simp only [Except.error.injEq] at h
        subst h
        exact lookupSlot_error_missing layout _ hwf (by decide) e2 h2
      | ok s2 => rw [h2] at h; simp at h
    · rw [if_neg hc] at h
      simp at h

/-- Every entry of the normalized field list is the line-items list under
the line_items key or a scalar under another key. -/
theorem normalized_fields_shape (n : NormalizedInvoice) :
    ∀ p ∈ normalized_fields n,
      (p.1 = "line_items" ∧ ∃ its, p.2 = FieldVal.items its)
        ∨ (p.1 ≠ "line_items" ∧ ∃ s2, p.2 = FieldVal.scalar s2) := by
  intro p hp
  simp only [normalized_fields, List.mem_cons, List.not_mem_nil, or_false] at hp
  rcases hp with h | h | h | h | h | h | h | h <;> subst h <;>
    first
      | exact Or.inl ⟨rfl, _, rfl⟩
      | exact Or.inr ⟨by intro hh; simp at hh, _, rfl⟩

/-- Under a well-formed layout, rendering a well-shaped field can only
fail with a missing-key error. -/
theorem render_field_error_missing (layout : Layout)
    (hwf : layoutWellFormed layout) (field : String) (v : FieldVal)
    (hshape : (field = "line_items" ∧ ∃ its, v = FieldVal.items its)
      ∨ (field ≠ "line_items" ∧ ∃ s2, v = FieldVal.scalar s2))
    (e : PdfError) (h : render_field layout field v = .error e) :
    IsMissingKey e := by
  rcases hshape with ⟨hf, its, hv⟩ | ⟨hf, s2, hv⟩
  · subst hf
    subst hv
    unfold render_field at h
    rw [if_pos rfl] at h
    cases ht : lookupTable layout "line_items" with
    | error e2 =>
      rw [ht] at h
      simp only [Except.error.injEq] at h
      subst h
      exact lookupTable_error_missing layout hwf e2 ht
    | ok sub =>
      rw [ht] at h
      exact write_line_items_error_missing its sub e h
  · subst hv
    unfold render_field at h
    rw [if_neg hf] at h
    cases hs : lookupSlot layout field with
    | error e2 =>
      rw [hs] at h
      simp only [Except.error.injEq] at h
      subst h
      exact lookupSlot_error_missing layout field hwf hf e2 hs
    | ok slot => rw [hs] at h; simp at h

/-- Under a well-formed layout, overlay generation for well-shaped fields
can only fail with a missing-key error. -/
theorem generate_invoice_overlay_error_missing (fields : List (String × FieldVal))
    (layout : Layout) (page_number total_pages : Nat)
    (hwf : layoutWellFormed layout)
    (hshape : ∀ p ∈ fields,
      (p.1 = "line_items" ∧ ∃ its, p.2 = FieldVal.items its)
        ∨ (p.1 ≠ "line_items" ∧ ∃ s2, p.2 = FieldVal.scalar s2))
    (e : PdfError)
    (h : generate_invoice_overlay fields layout page_number total_pages
      = .error e) : IsMissingKey e := by
  unfold generate_invoice_overlay at h
  cases hm : mapE (fun p => render_field layout p.1 p.2) fields with
  | error e2 =>
    rw [hm] at h
    simp only [Except.error.injEq] at h
    subst h
    obtain ⟨p, hp, hpe⟩ := mapE_error_elim _ _ e2 hm
    exact render_field_error_missing layout hwf p.1 p.2 (hshape p hp) e2 hpe
  | ok fieldOps =>
    rw [hm] at h
    cases hw : write_page_number page_number total_pages layout with
    | error e2 =>
      rw [hw] at h
      simp only [Except.error.injEq] at h
      subst h
      exact write_page_number_error_missing page_number total_pages layout hwf e2 hw
    | ok pageOps => rw [hw] at h; simp at h

/-- When some field key has no layout entry, rendering that field fails,
whatever the value. -/
theorem render_field_error_of_lookup_none (layout : Layout) (field : String)
    (v : FieldVal) (hl : List.lookup field layout = none) :
    ∃ e, render_field layout field v = .error e := by
  unfold render_field
  by_cases hf : field = "line_items"
  · rw [if_pos hf]
    cases v with
    | items its =>
      have ht : lookupTable layout "line_items" = .error (.missingLayoutKey "line_items") := by
        unfold lookupTable
        rw [← hf, hl]
      rw [ht]
      exact ⟨_, rfl⟩
    | scalar s2 => exact ⟨_, rfl⟩
  · rw [if_neg hf]
    cases v with
    | scalar s2 =>
      have hs : lookupSlot layout field = .error (.missingLayoutKey field) := by
        unfold lookupSlot
        rw [hl]
      rw [hs]
      exact ⟨_, rfl⟩
    | items its => exact ⟨_, rfl⟩

/-- When some field key has no layout entry, the overlay for that field
list fails. -/
theorem generate_invoice_overlay_error_of_missing
    (fields : List (String × FieldVal)) (layout : Layout)
    (page_number total_pages : Nat)
    (hex : ∃ fld ∈ fields.map Prod.fst, List.lookup fld layout = none) :
    ∃ e, generate_invoice_overlay fields layout page_number total_pages
      = .error e := by
  obtain ⟨fld, hfld, hl⟩ := hex
  obtain ⟨v, hv⟩ : ∃ v, (fld, v) ∈ fields := by
    obtain ⟨p, hp, hpe⟩ := List.mem_map.mp hfld
    exact ⟨p.2, by rw [← hpe]; exact hp⟩
  obtain ⟨e0, he0⟩ := render_field_error_of_lookup_none layout fld v hl
  obtain ⟨e2, he2⟩ := mapE_error_of_mem (fun p => render_field layout p.1 p.2)
    fields (fld, v) hv e0 he0
  unfold generate_invoice_overlay
  rw [he2]
  exact ⟨e2, rfl⟩

/-- The key list of the normalized field dict does not depend on the
field values. -/
theorem normalized_fields_keys (n n2 : NormalizedInvoice) :
    (normalized_fields n).map Prod.fst = (normalized_fields n2).map Prod.fst := rfl

/-- mapE fails at once when its head element fails. -/
theorem mapE_cons_error {α β ε : Type _} (g : α → Except ε β) (x : α)
    (xs : List α) (e : ε) (h : g x = .error e) :
    mapE g (x :: xs) = .error e := by
  unfold mapE
  rw [h]

/-- With a nonempty line-item list and some normalized field missing from
a well-formed layout, page generation fails with a missing-key error. -/
theorem generate_invoice_pages_error (n : NormalizedInvoice) (layout : Layout)
    (hne : n.line_items ≠ [])
    (hwf : layoutWellFormed layout)
    (hex : ∃ fld ∈ (normalized_fields n).map Prod.fst,
      List.lookup fld layout = none) :
    ∃ key, generate_invoice_pages n layout
      = .error (.missingLayoutKey key) := by
  have hex0 : ∃ fld ∈ (normalized_fields
      { n with line_items := n.line_items.take 10 }).map Prod.fst,
      List.lookup fld layout = none := by
    rw [normalized_fields_keys { n with line_items := n.line_items.take 10 } n]
    exact hex
  obtain ⟨e0, he0⟩ := generate_invoice_overlay_error_of_missing
    (normalized_fields { n with line_items := n.line_items.take 10 }) layout 0
    (n.line_items.take 10 :: generate_line_item_lists (n.line_items.drop 10)).length
    hex0
  have hmiss : IsMissingKey e0 :=
    generate_invoice_overlay_error_missing _ layout 0 _ hwf
      (normalized_fields_shape _) e0 he0
  obtain ⟨key, hkey⟩ : ∃ key, e0 = PdfError.missingLayoutKey key := by
    cases e0 with
    | missingLayoutKey k => exact ⟨k, rfl⟩
    | typeMismatch k => cases hmiss
    | typeError => cases hmiss
    | valueError => cases hmiss
  subst hkey
  refine ⟨key, ?_⟩
  unfold generate_invoice_pages
  rw [generate_line_item_lists_cons n.line_items hne]
  exact mapE_cons_error _ _ _ _ he0

/-- A successful normalization implies the invoice date parses and the
line-item count is preserved. -/
theorem format_invoice_form_input_props (f : InvoiceForm) (n : NormalizedInvoice)
    (h : format_invoice_form_input f = some n) :
    (∃ t, Utility.parse_iso_date f.invoice_date = some t)
    ∧ n.line_items.length = f.line_items.length := by
  unfold format_invoice_form_input at h
  split at h
  · simp at h
  · rename_i tb h1
    split at h
    · simp at h
    · rename_i itemsA h2
      split at h
      · simp at h
      · rename_i itemsF h3
        split at h
        · simp at h
        · rename_i totals h4
          split at h
          · rename_i du pu h5 h6
            simp only [Option.some.injEq] at h
            subst h
            constructor
            · unfold Utility.format_uk_date at h5
              cases hp : Utility.parse_iso_date f.invoice_date with
              | none => rw [hp] at h5; simp at h5
              | some t => exact ⟨t, rfl⟩
            · show itemsF.length = f.line_items.length
              rw [mapO_length format_line_item itemsA itemsF h3,
                mapO_length add_line_item_amount f.line_items itemsA h2]
          · simp at h

end Pdf

/-- C8: in the frozen source the claimed missing-layout-key abort is
unreachable. generate_invoice raises TypeError at its very first
statement for every input — even one whose normalized fields do lack a
layout entry — because generate_output_path calls format_uk_date with a
separator keyword the function does not declare. No byte is ever written
(the write trace is empty), but the error is that TypeError, never
MissingLayoutKey. The renderer itself would fail with a missing key
before any write, as generate_invoice_pages_error shows, yet control
never reaches it. -/
theorem C8_generate_invoice_type_error (root : String) (layout : Pdf.Layout)
    (f : Pdf.InvoiceForm) :
    Pdf.generate_invoice root layout f = (.error .typeError, [])
    ∧ Pdf.generate_invoice root layout f
        ≠ (.error (.missingLayoutKey "balance"), []) := by
  refine ⟨rfl, fun h => ?_⟩
  have h2 : ((Except.error Pdf.PdfError.typeError : Except Pdf.PdfError String),
      ([] : List (String × List (List Pdf.DrawOp))))
      = (.error (.missingLayoutKey "balance"), []) := h
  simp at h2
